import Mathlib

/-!
# TreasuryBot: shallow embedding and verification

A shallow embedding of the `TreasuryBot` Solidity contract
(`contracts/TreasuryBot.sol`) and of the rule-based oracle decision
function (`aiDecision` in the backend oracle service).

Modelling choices:
* Addresses are `Nat` (0 is the zero address).
* Solidity `mapping(address => bool)` / `mapping(address => uint256)`
  become Lean functions `Nat → Bool` / `Nat → Nat`.
* The proposals mapping together with `proposalCount` becomes a
  `List Proposal`; id `i` lives at index `i`, and the contract's
  `_proposalId >= proposalCount` check becomes an index-bound check.
* Each external (public) function becomes a Lean function returning
  `Except Err ...`: returning `.error e` models an EVM revert, which
  rolls back every storage write of the transaction, so the observable
  post-state of a failed call is the unchanged pre-state
  (made explicit by `commit`).
* The ERC-20 token is external: `balanceOf(address(this))` becomes a
  `tokenBalance : Nat` argument read at call time, and the success or
  failure of `safeTransfer` / `safeTransferFrom` becomes a
  `transferOk : Bool` argument.  A failing safe-transfer bubbles its
  revert, modelled by `.error .externalTransferFailed`.
* The two execution paths additionally return a trace of the storage
  write to the terminal flag and the attempted external transfer, in
  program order, so that the flag-before-transfer ordering is statable
  even on reverted runs.
-/

/-- The custom errors declared by the contract, plus `notOwner` for the
`onlyOwner` modifier's revert and `externalTransferFailed` for a revert
bubbled out of a safe ERC-20 transfer. -/
inductive Err where
  | notMember
  | alreadyMember
  | invalidAmount
  | proposalNotFound
  | alreadyVoted
  | proposalAlreadyExecuted
  | insufficientTreasuryBalance
  | proposalNotApproved
  | unauthorizedAIExecution
  | invalidRecipient
  | notOwner
  | externalTransferFailed
deriving Repr, DecidableEq

/-- The `Proposal` struct of the contract.  The `hasVoted` inner mapping
is the list of addresses that have voted. -/
structure Proposal where
  id : Nat
  proposer : Nat
  recipient : Nat
  amount : Nat
  description : String
  votesFor : Nat
  votesAgainst : Nat
  hasVoted : List Nat
  executed : Bool
  createdAt : Nat
deriving Repr, DecidableEq

instance : Inhabited Proposal :=
  ⟨{ id := 0, proposer := 0, recipient := 0, amount := 0, description := "",
     votesFor := 0, votesAgainst := 0, hasVoted := [], executed := false,
     createdAt := 0 }⟩

/-- The contract's storage.  `memberFlags` is the `isMember` mapping,
`members` the push-only `members` array, `deposits` the per-member
deposit mapping. -/
structure TreasuryState where
  owner : Nat
  aiOracle : Nat
  memberFlags : Nat → Bool
  members : List Nat
  memberCount : Nat
  proposals : List Proposal
  deposits : Nat → Nat
  totalDeposits : Nat

/-- `proposals[pid]` (meaningful when `pid < proposalCount`). -/
def proposalAt (s : TreasuryState) (pid : Nat) : Proposal :=
  s.proposals.getD pid default

/-- `proposalCount` storage variable: ids `0 .. count-1` are allocated. -/
def proposalCount (s : TreasuryState) : Nat :=
  s.proposals.length

/-- Observable post-state of a call: a revert (`error`) commits nothing,
so the pre-state stands. -/
def commit (s : TreasuryState) : Except Err TreasuryState → TreasuryState
  | .ok s' => s'
  | .error _ => s

/-- The storage write of `executed = true` on proposal `pid`. -/
def setExecutedAt (s : TreasuryState) (pid : Nat) : TreasuryState :=
  { s with proposals := s.proposals.set pid { proposalAt s pid with executed := true } }

/-- Primitive steps recorded on the execution paths, in program order:
the terminal-flag write and the external token transfer attempt. -/
inductive ExecAction where
  | setExecuted (pid : Nat)
  | extTransferOut (recipient amount : Nat)
deriving Repr, DecidableEq

/-- `addMember(_member)` — `onlyOwner`; reverts `AlreadyMember` when the
flag is already set; sets the flag, pushes onto the array, increments
`memberCount`. -/
def addMember (s : TreasuryState) (caller m : Nat) : Except Err TreasuryState :=
  if caller ≠ s.owner then .error .notOwner
  else if s.memberFlags m then .error .alreadyMember
  else .ok { s with
    memberFlags := fun a => if a = m then true else s.memberFlags a,
    members := s.members ++ [m],
    memberCount := s.memberCount + 1 }

/-- `removeMember(_member)` — `onlyOwner`; reverts `NotMember` when the
flag is clear; clears the flag and decrements `memberCount`.  The
`members` array is not touched. -/
def removeMember (s : TreasuryState) (caller m : Nat) : Except Err TreasuryState :=
  if caller ≠ s.owner then .error .notOwner
  else if ¬ s.memberFlags m then .error .notMember
  else .ok { s with
    memberFlags := fun a => if a = m then false else s.memberFlags a,
    memberCount := s.memberCount - 1 }

/-- `getAllMembers()` view: returns the raw `members` array. -/
def getAllMembers (s : TreasuryState) : List Nat :=
  s.members

/-- `deposit(_amount)`.  The contract updates `deposits[msg.sender]` and
`totalDeposits` and then calls `safeTransferFrom`; a failed transfer
reverts the whole call, balances included. -/
def deposit (s : TreasuryState) (caller amount : Nat) (transferOk : Bool) :
    Except Err TreasuryState :=
  if ¬ s.memberFlags caller then .error .notMember
  else if amount = 0 then .error .invalidAmount
  else
    let s' : TreasuryState := { s with
      deposits := fun a => if a = caller then s.deposits a + amount else s.deposits a,
      totalDeposits := s.totalDeposits + amount }
    if transferOk then .ok s' else .error .externalTransferFailed

/-- `createProposal(_recipient, _amount, _description)`.  Allocates id
`proposalCount`, stores a fresh record with zero tallies and
`executed = false`, returns the id. -/
def createProposal (s : TreasuryState) (caller recipient amount : Nat)
    (description : String) (now : Nat) : Except Err (Nat × TreasuryState) :=
  if ¬ s.memberFlags caller then .error .notMember
  else if recipient = 0 then .error .invalidRecipient
  else if amount = 0 then .error .invalidAmount
  else
    let pid := s.proposals.length
    .ok (pid, { s with proposals := s.proposals ++
      [{ id := pid, proposer := caller, recipient := recipient, amount := amount,
         description := description, votesFor := 0, votesAgainst := 0,
         hasVoted := [], executed := false, createdAt := now }] })

/-- `vote(_proposalId, _support)`. -/
def vote (s : TreasuryState) (caller pid : Nat) (support : Bool) :
    Except Err TreasuryState :=
  if ¬ s.memberFlags caller then .error .notMember
  else if s.proposals.length ≤ pid then .error .proposalNotFound
  else
    let p := proposalAt s pid
    if p.executed then .error .proposalAlreadyExecuted
    else if p.hasVoted.contains caller then .error .alreadyVoted
    else
      let q : Proposal := { p with
        hasVoted := caller :: p.hasVoted,
        votesFor := if support then p.votesFor + 1 else p.votesFor,
        votesAgainst := if support then p.votesAgainst else p.votesAgainst + 1 }
      .ok { s with proposals := s.proposals.set pid q }

/-- `executeProposal(_proposalId)` (manual path, any caller).  Checks:
found, not executed, `votesFor >= memberCount / 2 + 1`, token balance;
then writes `executed = true` and only afterwards attempts the external
transfer.  Also returns the trace of those two steps. -/
def executeProposal (s : TreasuryState) (pid tokenBalance : Nat) (transferOk : Bool) :
    Except Err TreasuryState × List ExecAction :=
  if s.proposals.length ≤ pid then (.error .proposalNotFound, [])
  else
    let p := proposalAt s pid
    if p.executed then (.error .proposalAlreadyExecuted, [])
    else if p.votesFor < s.memberCount / 2 + 1 then (.error .proposalNotApproved, [])
    else if tokenBalance < p.amount then (.error .insufficientTreasuryBalance, [])
    else
      let tr := [ExecAction.setExecuted pid, ExecAction.extTransferOut p.recipient p.amount]
      if transferOk then (.ok (setExecutedAt s pid), tr)
      else (.error .externalTransferFailed, tr)

/-- `autoExecute(_proposalId)` (oracle path).  Caller must be the
registered oracle; then the same found / terminal / balance checks as
the manual path, with no vote check at all. -/
def autoExecute (s : TreasuryState) (caller pid tokenBalance : Nat) (transferOk : Bool) :
    Except Err TreasuryState × List ExecAction :=
  if caller ≠ s.aiOracle then (.error .unauthorizedAIExecution, [])
  else if s.proposals.length ≤ pid then (.error .proposalNotFound, [])
  else
    let p := proposalAt s pid
    if p.executed then (.error .proposalAlreadyExecuted, [])
    else if tokenBalance < p.amount then (.error .insufficientTreasuryBalance, [])
    else
      let tr := [ExecAction.setExecuted pid, ExecAction.extTransferOut p.recipient p.amount]
      if transferOk then (.ok (setExecutedAt s pid), tr)
      else (.error .externalTransferFailed, tr)

/-! ## Oracle decision engine -/

/-- Is `pat` a prefix of `l` (character lists)? -/
def isPrefixL : List Char → List Char → Bool
  | [], _ => true
  | _ :: _, [] => false
  | a :: as, b :: bs => a = b && isPrefixL as bs

/-- Does `pat` occur as a contiguous segment of `l`?  Mirrors the
JavaScript `String.prototype.includes`. -/
def containsSeg (pat : List Char) : List Char → Bool
  | [] => isPrefixL pat []
  | b :: bs => isPrefixL pat (b :: bs) || containsSeg pat bs

/-- `s.includes(pat)` on strings. -/
def strIncludes (s pat : String) : Bool :=
  containsSeg pat.data s.data

/-- `aiDecision(proposal, description)` from the oracle service,
translated from the JavaScript source.  Amounts and balances are in
MNEE units (rationals, as `formatEther` yields fractional values);
`true` means auto-execute, `false` means defer to manual voting. -/
def aiDecision (amount : ℚ) (description : String) (treasuryBalance : ℚ) : Bool :=
  let d := description.toLower
  if strIncludes d "emergency" && decide (amount < 10) then true
  else if strIncludes d "subscription" && decide (amount < 50) then true
  else if strIncludes d "gas" && decide (amount < 5) then true
  else if treasuryBalance - amount < 100 then false
  else if strIncludes d "urgent" && decide (amount < 20) then true
  else false

/-- Outcome alphabet of the specification's oracle state machine. -/
inductive OracleOutcome where
  | approved
  | deferred
deriving Repr, DecidableEq

/-- The spec's ordered first-match rule list, stated from the spec's
words (rules 1–6 with thresholds 10, 50, 5, 20 and reserve floor 100),
to be compared with `aiDecision` from the source. -/
def specRuleDecision (amount : ℚ) (description : String) (treasuryBalance : ℚ) :
    OracleOutcome :=
  let d := description.toLower
  if strIncludes d "emergency" ∧ amount < 10 then .approved
  else if strIncludes d "subscription" ∧ amount < 50 then .approved
  else if strIncludes d "gas" ∧ amount < 5 then .approved
  else if treasuryBalance - amount < 100 then .deferred
  else if strIncludes d "urgent" ∧ amount < 20 then .approved
  else .deferred

/-! ## Concrete states used by the closed instantiations -/

def pW : Proposal :=
  { id := 0, proposer := 1, recipient := 7, amount := 50, description := "ops budget",
    votesFor := 2, votesAgainst := 0, hasVoted := [1, 2], executed := false, createdAt := 0 }

def stW : TreasuryState :=
  { owner := 0, aiOracle := 9, memberFlags := fun a => a == 1 || a == 2 || a == 3,
    members := [1, 2, 3], memberCount := 3, proposals := [pW],
    deposits := fun _ => 0, totalDeposits := 0 }

def pWlow : Proposal := { pW with votesFor := 1, hasVoted := [1] }

def stWlow : TreasuryState := { stW with proposals := [pWlow] }

def pWzero : Proposal := { pW with votesFor := 0, votesAgainst := 0, hasVoted := [] }

def stWzero : TreasuryState := { stW with proposals := [pWzero] }

def sVoted : TreasuryState :=
  match vote stW 3 0 true with
  | .ok t => t
  | .error _ => stW

def sDep : TreasuryState :=
  match deposit stW 1 5 true with
  | .ok t => t
  | .error _ => stW

def sProp : TreasuryState :=
  match createProposal stW 1 7 25 "supplies" 0 with
  | .ok (_, t) => t
  | .error _ => stW

def sRm : TreasuryState :=
  match removeMember stW 0 1 with
  | .ok t => t
  | .error _ => stW

def sRmAdd : TreasuryState :=
  match addMember sRm 0 1 with
  | .ok t => t
  | .error _ => stW

/-! ## Helper lemmas -/

lemma proposalAt_set_self (s : TreasuryState) (pid : Nat) (q : Proposal)
    (h : pid < s.proposals.length) :
    proposalAt { s with proposals := s.proposals.set pid q } pid = q := by
  simp [proposalAt, List.getD_eq_getElem?_getD, List.getElem?_set_self',
    List.getElem?_eq_getElem h]

lemma proposalAt_setExecutedAt_self (s : TreasuryState) (pid : Nat)
    (h : pid < s.proposals.length) :
    proposalAt (setExecutedAt s pid) pid = { proposalAt s pid with executed := true } := by
  simpa [setExecutedAt] using proposalAt_set_self s pid _ h

lemma executeProposal_ok_inv (s s' : TreasuryState) (pid bal : Nat) (tok : Bool)
    (h : (executeProposal s pid bal tok).1 = .ok s') :
    pid < s.proposals.length ∧ (proposalAt s pid).executed = false ∧
      s.memberCount / 2 + 1 ≤ (proposalAt s pid).votesFor ∧
      (proposalAt s pid).amount ≤ bal ∧ tok = true ∧ s' = setExecutedAt s pid := by
  simp only [executeProposal] at h
  split_ifs at h <;> simp_all

lemma autoExecute_ok_inv (s s' : TreasuryState) (caller pid bal : Nat) (tok : Bool)
    (h : (autoExecute s caller pid bal tok).1 = .ok s') :
    caller = s.aiOracle ∧ pid < s.proposals.length ∧ (proposalAt s pid).executed = false ∧
      (proposalAt s pid).amount ≤ bal ∧ tok = true ∧ s' = setExecutedAt s pid := by
  simp only [autoExecute] at h
  split_ifs at h <;> simp_all

lemma executeProposal_err_of_executed (s : TreasuryState) (pid bal : Nat) (tok : Bool)
    (h1 : pid < s.proposals.length) (h2 : (proposalAt s pid).executed = true) :
    (executeProposal s pid bal tok).1 = .error .proposalAlreadyExecuted := by
  have hle : ¬ s.proposals.length ≤ pid := by omega
  simp [executeProposal, hle, h2]

lemma autoExecute_err_of_executed (s : TreasuryState) (pid bal : Nat) (tok : Bool)
    (h1 : pid < s.proposals.length) (h2 : (proposalAt s pid).executed = true) :
    (autoExecute s s.aiOracle pid bal tok).1 = .error .proposalAlreadyExecuted := by
  have hle : ¬ s.proposals.length ≤ pid := by omega
  simp [autoExecute, hle, h2]

/-! ## The claims -/

/-- Claim C1: for every proposal id, at most one execution ever succeeds.
Once the `executed` flag of a proposal is set, every later `executeProposal`
call, and every later `autoExecute` call by the registered oracle, on that id
fails with `ProposalAlreadyExecuted` and (by revert semantics, via `commit`)
leaves all state unchanged; and after either path succeeds, both paths fail
with `ProposalAlreadyExecuted` on the resulting state, so of two calls on one
id exactly one succeeds. -/
theorem execute_exactly_once (s s' : TreasuryState) (pid bal bal' : Nat)
    (tok tok' : Bool) :
    (pid < proposalCount s → (proposalAt s pid).executed = true →
       (executeProposal s pid bal tok).1 = .error .proposalAlreadyExecuted ∧
       (autoExecute s s.aiOracle pid bal tok).1 = .error .proposalAlreadyExecuted ∧
       commit s (executeProposal s pid bal tok).1 = s ∧
       commit s (autoExecute s s.aiOracle pid bal tok).1 = s) ∧
    ((executeProposal s pid bal tok).1 = .ok s' →
       (executeProposal s' pid bal' tok').1 = .error .proposalAlreadyExecuted ∧
       (autoExecute s' s'.aiOracle pid bal' tok').1 = .error .proposalAlreadyExecuted) ∧
    (∀ caller, (autoExecute s caller pid bal tok).1 = .ok s' →
       (executeProposal s' pid bal' tok').1 = .error .proposalAlreadyExecuted ∧
       (autoExecute s' s'.aiOracle pid bal' tok').1 = .error .proposalAlreadyExecuted) := by
  refine ⟨fun hlt hex => ?_, fun hok => ?_, fun caller hok => ?_⟩
  · have e1 := executeProposal_err_of_executed s pid bal tok hlt hex
    have e2 := autoExecute_err_of_executed s pid bal tok hlt hex
    refine ⟨e1, e2, ?_, ?_⟩ <;> simp [commit, e1, e2]
  · obtain ⟨h1, h2, h3, h4, h5, rfl⟩ := executeProposal_ok_inv s s' pid bal tok hok
    have hlen : (setExecutedAt s pid).proposals.length = s.proposals.length := by
      simp [setExecutedAt]
    have hexec := proposalAt_setExecutedAt_self s pid h1
    exact ⟨executeProposal_err_of_executed _ pid bal' tok' (by omega) (by simp [hexec]),
      autoExecute_err_of_executed _ pid bal' tok' (by omega) (by simp [hexec])⟩
  · obtain ⟨hc, h1, h2, h3, h4, rfl⟩ := autoExecute_ok_inv s s' caller pid bal tok hok
    have hlen : (setExecutedAt s pid).proposals.length = s.proposals.length := by
      simp [setExecutedAt]
    have hexec := proposalAt_setExecutedAt_self s pid h1
    exact ⟨executeProposal_err_of_executed _ pid bal' tok' (by omega) (by simp [hexec]),
      autoExecute_err_of_executed _ pid bal' tok' (by omega) (by simp [hexec])⟩

/-- Closed instantiation of `execute_exactly_once` on a concrete state. -/
theorem execute_exactly_once_witness :
    (executeProposal (setExecutedAt stW 0) 0 100 true).1 = .error .proposalAlreadyExecuted ∧
    (autoExecute (setExecutedAt stW 0) 9 0 100 true).1 = .error .proposalAlreadyExecuted :=
  (execute_exactly_once stW (setExecutedAt stW 0) 0 100 100 true true).2.1 rfl

/-- Claim C2: `executeProposal` succeeds only when, at execution time,
`votesFor >= memberCount / 2 + 1` computed against the live member count of
the execution-time state; when `votesFor` is below that threshold (for an
existing, unexecuted proposal) the call fails with `ProposalNotApproved` and
the committed state is unchanged. -/
theorem executeProposal_majority_threshold (s s' : TreasuryState) (pid bal : Nat) (tok : Bool) :
    ((executeProposal s pid bal tok).1 = .ok s' →
       s.memberCount / 2 + 1 ≤ (proposalAt s pid).votesFor) ∧
    (pid < proposalCount s → (proposalAt s pid).executed = false →
       (proposalAt s pid).votesFor < s.memberCount / 2 + 1 →
       (executeProposal s pid bal tok).1 = .error .proposalNotApproved ∧
       commit s (executeProposal s pid bal tok).1 = s) := by
  constructor
  · exact fun hok => (executeProposal_ok_inv s s' pid bal tok hok).2.2.1
  · intro h1 h2 h3
    simp only [proposalCount] at h1
    have hle : ¬ s.proposals.length ≤ pid := by omega
    have herr : (executeProposal s pid bal tok).1 = .error .proposalNotApproved := by
      simp [executeProposal, hle, h2, h3]
    exact ⟨herr, by simp [commit, herr]⟩

/-- Closed instantiation of `executeProposal_majority_threshold` on a concrete state. -/
theorem executeProposal_majority_threshold_witness :
    (executeProposal stWlow 0 100 true).1 = .error .proposalNotApproved ∧
    commit stWlow (executeProposal stWlow 0 100 true).1 = stWlow :=
  (executeProposal_majority_threshold stWlow stWlow 0 100 true).2 (by decide) rfl (by decide)

/-- Claim C3: the oracle decision function follows exactly the spec's ordered
first-match rule list: emergency/amount<10, subscription/amount<50,
gas/amount<5 approve; then the reserve-floor rule (balance − amount < 100)
defers, overriding the later urgent rule but not the earlier ones; then
urgent/amount<20 approves; default defers.  `specRuleDecision` transcribes
the spec's rule list; `aiDecision` is the source's decision function. -/
theorem aiDecision_matches_spec (amount treasuryBalance : ℚ) (description : String) :
    specRuleDecision amount description treasuryBalance =
      (if aiDecision amount description treasuryBalance then .approved else .deferred) := by
  unfold aiDecision specRuleDecision
  simp only [Bool.and_eq_true, decide_eq_true_eq]
  split_ifs <;> simp_all

/-- Claim C4: `autoExecute` fails with `UnauthorizedAIExecution` for every
caller other than the registered oracle; called by the oracle it performs no
vote-majority check at all — for any tally (in particular zero votes) it
succeeds provided the id exists, the proposal is unexecuted, and the custody
balance covers the amount. -/
theorem autoExecute_oracle_gate (s : TreasuryState) (caller pid bal : Nat) (tok : Bool) :
    (caller ≠ s.aiOracle →
       (autoExecute s caller pid bal tok).1 = .error .unauthorizedAIExecution) ∧
    (caller = s.aiOracle → pid < proposalCount s → (proposalAt s pid).executed = false →
       (proposalAt s pid).amount ≤ bal →
       (autoExecute s caller pid bal true).1 = .ok (setExecutedAt s pid)) := by
  constructor
  · intro h; simp [autoExecute, h]
  · intro hc h1 h2 h3
    simp only [proposalCount] at h1
    have hle : ¬ s.proposals.length ≤ pid := by omega
    have hba : ¬ bal < (proposalAt s pid).amount := by omega
    simp [autoExecute, hc, hle, h2, hba]

/-- Closed instantiation of `autoExecute_oracle_gate` on a concrete state. -/
theorem autoExecute_oracle_gate_witness :
    (autoExecute stWzero 5 0 100 true).1 = .error .unauthorizedAIExecution ∧
    (autoExecute stWzero 9 0 100 true).1 = .ok (setExecutedAt stWzero 0) :=
  ⟨(autoExecute_oracle_gate stWzero 5 0 100 true).1 (by decide),
   (autoExecute_oracle_gate stWzero 9 0 100 true).2 (by decide) (by decide) rfl (by decide)⟩

/-- Claim C5: a second vote by the same identity on the same proposal fails
with `AlreadyVoted` regardless of the support value; any vote by a member on
an executed proposal fails with `ProposalAlreadyExecuted`; and a failing vote
commits no change to tallies or the has-voted set (revert semantics). -/
theorem vote_once_and_frozen (s s' : TreasuryState) (idv pid : Nat) (b b' : Bool) :
    (vote s idv pid b = .ok s' → vote s' idv pid b' = .error .alreadyVoted) ∧
    (s.memberFlags idv = true → pid < proposalCount s →
       (proposalAt s pid).executed = true →
       vote s idv pid b = .error .proposalAlreadyExecuted) ∧
    (∀ e, vote s idv pid b = .error e → commit s (vote s idv pid b) = s) := by
  refine ⟨fun hok => ?_, fun hm h1 hex => ?_, fun e he => ?_⟩
  · simp only [vote] at hok
    split_ifs at hok with h1 h2 h3 h4 h5 <;>
    · simp only [Except.ok.injEq] at hok
      subst hok
      have hlt : pid < s.proposals.length := by omega
      simp [vote, h1, h2, h3, hlt, proposalAt_set_self]
  · simp only [proposalCount] at h1
    have hle : ¬ s.proposals.length ≤ pid := by omega
    simp [vote, hm, hle, hex]
  · simp [commit, he]

/-- Closed instantiation of `vote_once_and_frozen` on a concrete state. -/
theorem vote_once_and_frozen_witness :
    vote sVoted 3 0 false = .error .alreadyVoted ∧
    vote (setExecutedAt stW 0) 1 0 true = .error .proposalAlreadyExecuted :=
  ⟨(vote_once_and_frozen stW sVoted 3 0 true false).1 rfl,
   (vote_once_and_frozen (setExecutedAt stW 0) stW 1 0 true true).2.1 (by decide) (by decide) (by decide)⟩

/-- Claim C6: a successful `deposit` by a member with a nonzero amount
increments `deposits[caller]` and `totalDeposits` by exactly that amount;
a non-member fails with `NotMember`, a zero amount fails with
`InvalidAmount`, and a failing external transfer fails the whole operation
with no committed balance change. -/
theorem deposit_accounting (s s' : TreasuryState) (caller amount : Nat) (tok : Bool) :
    (deposit s caller amount tok = .ok s' →
       s'.deposits caller = s.deposits caller + amount ∧
       s'.totalDeposits = s.totalDeposits + amount) ∧
    (s.memberFlags caller = false →
       deposit s caller amount tok = .error .notMember) ∧
    (s.memberFlags caller = true → amount = 0 →
       deposit s caller amount tok = .error .invalidAmount) ∧
    (s.memberFlags caller = true → amount ≠ 0 →
       deposit s caller amount false = .error .externalTransferFailed ∧
       commit s (deposit s caller amount false) = s) := by
  refine ⟨fun hok => ?_, fun hm => ?_, fun hm hz => ?_, fun hm hz => ?_⟩
  · simp only [deposit] at hok
    split_ifs at hok with h1 h2
    simp only [Except.ok.injEq] at hok
    subst hok
    simp
  · simp [deposit, hm]
  · simp [deposit, hm, hz]
  · have herr : deposit s caller amount false = .error .externalTransferFailed := by
      simp [deposit, hm, hz]
    exact ⟨herr, by simp [commit, herr]⟩

/-- Closed instantiation of `deposit_accounting` on a concrete state. -/
theorem deposit_accounting_witness :
    (sDep.deposits 1 = stW.deposits 1 + 5 ∧ sDep.totalDeposits = stW.totalDeposits + 5) ∧
    deposit stW 4 5 true = .error .notMember ∧
    deposit stW 1 0 true = .error .invalidAmount ∧
    deposit stW 1 5 false = .error .externalTransferFailed :=
  ⟨(deposit_accounting stW sDep 1 5 true).1 rfl,
   (deposit_accounting stW stW 4 5 true).2.1 (by decide),
   (deposit_accounting stW stW 1 0 true).2.2.1 (by decide) rfl,
   ((deposit_accounting stW stW 1 5 false).2.2.2 (by decide) (by decide)).1⟩

/-- Claim C7: both execution paths fail with `InsufficientTreasuryBalance`
when the requested amount exceeds the live custody balance (for a found,
unexecuted proposal that passes the path's earlier checks), and in that case
the committed state is unchanged — in particular the `executed` flag of the
proposal is still clear. -/
theorem execute_insufficient_balance (s : TreasuryState) (caller pid bal : Nat) (tok : Bool) :
    (pid < proposalCount s → (proposalAt s pid).executed = false →
       s.memberCount / 2 + 1 ≤ (proposalAt s pid).votesFor →
       bal < (proposalAt s pid).amount →
       (executeProposal s pid bal tok).1 = .error .insufficientTreasuryBalance ∧
       commit s (executeProposal s pid bal tok).1 = s ∧
       (proposalAt (commit s (executeProposal s pid bal tok).1) pid).executed = false) ∧
    (caller = s.aiOracle → pid < proposalCount s → (proposalAt s pid).executed = false →
       bal < (proposalAt s pid).amount →
       (autoExecute s caller pid bal tok).1 = .error .insufficientTreasuryBalance ∧
       commit s (autoExecute s caller pid bal tok).1 = s ∧
       (proposalAt (commit s (autoExecute s caller pid bal tok).1) pid).executed = false) := by
  constructor
  · intro h1 hex hv hb
    simp only [proposalCount] at h1
    have hle : ¬ s.proposals.length ≤ pid := by omega
    have hnv : ¬ (proposalAt s pid).votesFor < s.memberCount / 2 + 1 := by omega
    have herr : (executeProposal s pid bal tok).1 = .error .insufficientTreasuryBalance := by
      simp [executeProposal, hle, hex, hnv, hb]
    exact ⟨herr, by simp [commit, herr], by simp [commit, herr, hex]⟩
  · intro hc h1 hex hb
    simp only [proposalCount] at h1
    have hle : ¬ s.proposals.length ≤ pid := by omega
    have herr : (autoExecute s caller pid bal tok).1 = .error .insufficientTreasuryBalance := by
      simp [autoExecute, hc, hle, hex, hb]
    exact ⟨herr, by simp [commit, herr], by simp [commit, herr, hex]⟩

/-- Closed instantiation of `execute_insufficient_balance` on a concrete state. -/
theorem execute_insufficient_balance_witness :
    (executeProposal stW 0 10 true).1 = .error .insufficientTreasuryBalance ∧
    (autoExecute stW 9 0 10 true).1 = .error .insufficientTreasuryBalance :=
  ⟨((execute_insufficient_balance stW 9 0 10 true).1 (by decide) rfl (by decide) (by decide)).1,
   ((execute_insufficient_balance stW 9 0 10 true).2 (by decide) (by decide) rfl (by decide)).1⟩

/-- Claim C8 (amended): in both execution paths the `executed`-flag write
strictly precedes the external transfer attempt in the action trace; but a
failure of the external transfer does not leave the flag set — the
safe-transfer failure reverts the whole transaction, so the call never
commits a post-state (the flag write is rolled back together with
everything else). -/
theorem execute_flag_before_transfer (s : TreasuryState) (caller pid bal : Nat) (tok : Bool) :
    (∀ r a, ExecAction.extTransferOut r a ∈ (executeProposal s pid bal tok).2 →
       (executeProposal s pid bal tok).2 =
         [ExecAction.setExecuted pid, ExecAction.extTransferOut r a]) ∧
    (∀ r a, ExecAction.extTransferOut r a ∈ (autoExecute s caller pid bal tok).2 →
       (autoExecute s caller pid bal tok).2 =
         [ExecAction.setExecuted pid, ExecAction.extTransferOut r a]) ∧
    (∀ s', (executeProposal s pid bal false).1 ≠ .ok s') ∧
    (∀ s', (autoExecute s caller pid bal false).1 ≠ .ok s') := by
  refine ⟨fun r a hmem => ?_, fun r a hmem => ?_, fun s' hok => ?_, fun s' hok => ?_⟩
  · simp only [executeProposal] at hmem ⊢
    split_ifs at hmem ⊢ <;> simp_all
  · simp only [autoExecute] at hmem ⊢
    split_ifs at hmem ⊢ <;> simp_all
  · have := (executeProposal_ok_inv s s' pid bal false hok).2.2.2.2.1
    simp at this
  · have := (autoExecute_ok_inv s s' caller pid bal false hok).2.2.2.2.1
    simp at this

/-- Claim C8 counterexample: on a concrete approved proposal whose external
transfer fails, the transfer was attempted (it appears in the trace), yet the
committed state still has `executed = false` — the original claim says the
proposal "remains marked executed", which is false. -/
theorem flag_not_set_after_failed_transfer :
    ExecAction.extTransferOut 7 50 ∈ (executeProposal stW 0 100 false).2 ∧
    (executeProposal stW 0 100 false).1 = .error .externalTransferFailed ∧
    (proposalAt (commit stW (executeProposal stW 0 100 false).1) 0).executed = false :=
  ⟨by decide, rfl, rfl⟩

/-- Closed instantiation of `execute_flag_before_transfer` on a concrete state. -/
theorem execute_flag_before_transfer_witness :
    (executeProposal stW 0 100 false).2 =
      [ExecAction.setExecuted 0, ExecAction.extTransferOut 7 50] ∧
    (executeProposal stW 0 100 false).1 ≠ .ok (setExecutedAt stW 0) :=
  ⟨(execute_flag_before_transfer stW 9 0 100 false).1 7 50 (by decide),
   (execute_flag_before_transfer stW 9 0 100 false).2.2.1 (setExecutedAt stW 0)⟩

/-- Claim C9: a successful `createProposal` by a member with a non-null
recipient and nonzero amount returns the previous proposal count as the new
id, increments the count by one, stores the proposal with zero tallies and
`executed = false`, and changes no deposit balances; a non-member fails with
`NotMember`, a zero recipient with `InvalidRecipient`, a zero amount with
`InvalidAmount`. -/
theorem createProposal_sequential (s s' : TreasuryState)
    (caller recipient amount pid now : Nat) (description : String) :
    (createProposal s caller recipient amount description now = .ok (pid, s') →
       pid = proposalCount s ∧ proposalCount s' = proposalCount s + 1 ∧
       proposalAt s' pid =
         { id := pid, proposer := caller, recipient := recipient, amount := amount,
           description := description, votesFor := 0, votesAgainst := 0,
           hasVoted := [], executed := false, createdAt := now } ∧
       s'.deposits = s.deposits ∧ s'.totalDeposits = s.totalDeposits) ∧
    (s.memberFlags caller = false →
       createProposal s caller recipient amount description now = .error .notMember) ∧
    (s.memberFlags caller = true → recipient = 0 →
       createProposal s caller recipient amount description now = .error .invalidRecipient) ∧
    (s.memberFlags caller = true → recipient ≠ 0 → amount = 0 →
       createProposal s caller recipient amount description now = .error .invalidAmount) := by
  refine ⟨fun hok => ?_, fun hm => ?_, fun hm hr => ?_, fun hm hr hz => ?_⟩
  · simp only [createProposal] at hok
    split_ifs at hok with h1 h2 h3
    simp only [Except.ok.injEq, Prod.mk.injEq] at hok
    obtain ⟨hpid, hs⟩ := hok
    subst hpid
    subst hs
    refine ⟨rfl, by simp [proposalCount], ?_, rfl, rfl⟩
    simp [proposalAt, proposalCount, List.getD_eq_getElem?_getD, List.getElem?_concat_length]
  · simp [createProposal, hm]
  · simp [createProposal, hm, hr]
  · simp [createProposal, hm, hr, hz]

/-- Closed instantiation of `createProposal_sequential` on a concrete state. -/
theorem createProposal_sequential_witness :
    (1 = proposalCount stW ∧ proposalCount sProp = proposalCount stW + 1 ∧
     proposalAt sProp 1 =
       { id := 1, proposer := 1, recipient := 7, amount := 25, description := "supplies",
         votesFor := 0, votesAgainst := 0, hasVoted := [], executed := false, createdAt := 0 } ∧
     sProp.deposits = stW.deposits ∧ sProp.totalDeposits = stW.totalDeposits) ∧
    createProposal stW 4 7 25 "supplies" 0 = .error .notMember ∧
    createProposal stW 1 0 25 "supplies" 0 = .error .invalidRecipient ∧
    createProposal stW 1 7 0 "supplies" 0 = .error .invalidAmount :=
  ⟨(createProposal_sequential stW sProp 1 7 25 1 0 "supplies").1 rfl,
   (createProposal_sequential stW stW 4 7 25 1 0 "supplies").2.1 (by decide),
   (createProposal_sequential stW stW 1 0 25 1 0 "supplies").2.2.1 (by decide) rfl,
   (createProposal_sequential stW stW 1 7 0 1 0 "supplies").2.2.2 (by decide) (by decide) rfl⟩

/-- Claim C10: `removeMember` clears the membership flag and decrements
`memberCount` but never removes the identity from the `members` array, so
`getAllMembers` can return identities that are no longer members; re-adding
a removed identity appends it to the array a second time, so the array can
hold duplicates and grow strictly longer than `memberCount`. -/
theorem removeMember_keeps_array (s s1 s2 : TreasuryState) (caller m : Nat)
    (hcount : 1 ≤ s.memberCount)
    (hrm : removeMember s caller m = .ok s1)
    (had : addMember s1 caller m = .ok s2) :
    s1.members = s.members ∧ s1.memberFlags m = false ∧
      s1.memberCount = s.memberCount - 1 ∧
      (m ∈ s.members → m ∈ getAllMembers s1 ∧ s1.memberFlags m = false) ∧
      s2.members = s.members ++ [m] ∧
      (m ∈ s.members → 2 ≤ s2.members.count m) ∧
      s2.members.length = s.members.length + 1 ∧ s2.memberCount = s.memberCount ∧
      (s.memberCount ≤ s.members.length → s2.memberCount < s2.members.length) := by
  simp only [removeMember] at hrm
  split_ifs at hrm with h1 h2
  simp only [Except.ok.injEq] at hrm
  subst hrm
  simp only [addMember] at had
  split_ifs at had with h3
  simp only [Except.ok.injEq] at had
  subst had
  refine ⟨rfl, by simp, rfl, fun hmem => ⟨hmem, by simp⟩, rfl, fun hmem => ?_,
    by simp, by simp; omega, fun hlen => by simp; omega⟩
  simp [List.count_append, List.count_singleton]
  exact hmem

/-- Closed instantiation of `removeMember_keeps_array` on a concrete state. -/
theorem removeMember_keeps_array_witness :
    sRm.members = stW.members ∧ sRm.memberFlags 1 = false ∧
      sRm.memberCount = stW.memberCount - 1 ∧
      (1 ∈ stW.members → 1 ∈ getAllMembers sRm ∧ sRm.memberFlags 1 = false) ∧
      sRmAdd.members = stW.members ++ [1] ∧
      (1 ∈ stW.members → 2 ≤ sRmAdd.members.count 1) ∧
      sRmAdd.members.length = stW.members.length + 1 ∧ sRmAdd.memberCount = stW.memberCount ∧
      (stW.memberCount ≤ stW.members.length → sRmAdd.memberCount < sRmAdd.members.length) :=
  removeMember_keeps_array stW sRm sRmAdd 0 1 (by decide) rfl rfl
